import Mathlib

/-!
Verification development for the resilient retrieval/extraction engine of the
job-search-assistant repository.  The definitions below are a shallow
embedding, translated from `src/scrapers/indeed_crawl4ai.py` (ProxyRotator,
IndeedCrawl4AIScraper) and `src/scrapers/indeed.py` (status/CAPTCHA
classification in IndeedScraper._scrape_page).  Python dictionaries with
`.get(key, 0)` reads are modelled as total functions with default 0; Python
floats are modelled as rationals; datetimes are modelled as integer
timestamps in seconds; the ambient clock `datetime.now()` becomes an explicit
`now` parameter; `random.random()` draws become explicit rational parameters
in [0,1); the network is modelled as a script assigning an outcome to every
fetch attempt.
-/

namespace JobSearch

/-- State of `ProxyRotator` (indeed_crawl4ai.py lines 28-92).  `failures`
models the Python dict `self.failures` with `.get(p, 0)` semantics. -/
structure ProxyRotator where
  proxies : List String
  currentIdx : Nat
  failures : String → Nat
  maxFailures : Nat

/-- `ProxyRotator.__init__`: filters out empty entries, index 0, empty
failure dict, max_failures = 3. -/
def mkProxyRotator (proxyList : List String) : ProxyRotator :=
  { proxies := proxyList.filter (fun p => p ≠ "")
    currentIdx := 0
    failures := fun _ => 0
    maxFailures := 3 }

/-- `ProxyRotator.mark_failure`: increment the failure counter of a
non-empty proxy string. -/
def mark_failure (s : ProxyRotator) (proxy : String) : ProxyRotator :=
  if proxy = "" then s
  else { s with failures := fun q => if q = proxy then s.failures proxy + 1 else s.failures q }

/-- `ProxyRotator.mark_success`: reset the failure counter of the proxy to 0
(in Python only when the key is present; with the default-0 reading this is
the same map). -/
def mark_success (s : ProxyRotator) (proxy : String) : ProxyRotator :=
  if proxy = "" then s
  else { s with failures := fun q => if q = proxy then 0 else s.failures q }

/-- The scan loop inside `get_next_proxy`: try up to `fuel` proxies starting
at index `idx`, advancing round-robin, returning the first one whose failure
count is below `maxFailures` together with the advanced index. -/
def scanProxies (proxies : List String) (failures : String → Nat) (maxF : Nat) :
    Nat → Nat → Option (String × Nat)
  | _, 0 => none
  | idx, fuel + 1 =>
    let proxy := proxies.getD idx ""
    let idx' := (idx + 1) % proxies.length
    if failures proxy < maxF then some (proxy, idx')
    else scanProxies proxies failures maxF idx' fuel

/-- `ProxyRotator.get_next_proxy` (lines 48-68): round-robin scan over all
proxies once, skipping those with `failures ≥ max_failures`; if every proxy
is unhealthy, clear all failure counters and return the first proxy.  After
a full unsuccessful scan of n proxies the index has advanced n times mod n,
i.e. is back at its original value. -/
def get_next_proxy (s : ProxyRotator) : Option String × ProxyRotator :=
  if s.proxies.isEmpty then (none, s)
  else
    match scanProxies s.proxies s.failures s.maxFailures s.currentIdx s.proxies.length with
    | some (p, idx') => (some p, { s with currentIdx := idx' })
    | none => (s.proxies.head?, { s with failures := fun _ => 0 })

/-! ### String helpers shared by the extraction pipeline -/

/-- Substring test: Python `sub in s` on character lists. -/
def hasSub (sub l : List Char) : Bool :=
  l.tails.any (fun t => List.isPrefixOf sub t)

/-- Python `str.strip()`: drop whitespace at both ends. -/
def trimChars (cs : List Char) : List Char :=
  ((cs.dropWhile Char.isWhitespace).reverse.dropWhile Char.isWhitespace).reverse

/-- The character list of the literal removed by `_parse_posted_date`. -/
def postedChars : List Char := "posted".data

/-- Python `s.replace('posted', '')`: remove every occurrence of "posted",
scanning left to right without rescanning replaced text. -/
def removePosted : List Char → List Char
  | [] => []
  | c :: cs =>
    if List.isPrefixOf postedChars (c :: cs) then removePosted (cs.drop 5)
    else c :: removePosted cs
  termination_by cs => cs.length
  decreasing_by
  · simp [List.length_drop]; omega
  · simp

/-- Value of the numeral formed by a run of decimal digits (Python `int`). -/
def digitsToNat (cs : List Char) : Nat :=
  cs.foldl (fun a c => a * 10 + (c.toNat - 48)) 0

/-- Python `re.search(r'(\d+)', t)` followed by `int(...)`: the first maximal
digit run in the text, as a number. -/
def firstNumber : List Char → Option Nat
  | [] => none
  | c :: cs =>
    if c.isDigit then some (digitsToNat (c :: cs.takeWhile Char.isDigit))
    else firstNumber cs

/-- `IndeedCrawl4AIScraper._parse_posted_date` (lines 1078-1107), with the
ambient `datetime.now()` made an explicit `now : Int` parameter (seconds).
Relative phrases subtract the matching timedelta; anything unparseable
returns `now`. -/
def parsePostedDate (now : Int) (dateText : String) : Int :=
  if dateText = "" then now
  else
    let t0 := trimChars (dateText.data.map Char.toLower)
    let t := trimChars (removePosted t0)
    if t = [] ∨ t = "just".data ∨ hasSub "today".data t then now
    else
      match firstNumber t with
      | none => now
      | some n =>
        if hasSub "hour".data t then now - (n : Int) * 3600
        else if hasSub "day".data t then now - (n : Int) * 86400
        else if hasSub "week".data t then now - (n : Int) * 604800
        else if hasSub "month".data t then now - ((n : Int) * 30) * 86400
        else now

/-! ### Salary parsing (`_parse_salary`, lines 1109-1146)

The regex `\$?([\d,]+(?:\.\d{2})?)\s*[kK]?` is embedded as a direct scanner:
a match optionally consumes a dollar sign, then a non-empty maximal run of
digits and commas, then an optional dot followed by exactly two digits
(all captured), then maximal whitespace and an optional k/K. -/

/-- Characters matched by the `[\d,]` class. -/
def isDigitOrComma (c : Char) : Bool := c.isDigit || c = ','

/-- Attempt one regex match at the head of the list; on success return the
captured group and the remainder after the whole match. -/
def matchSalaryNum (cs : List Char) : Option (List Char × List Char) :=
  let cs1 := if cs.head? = some '$' then cs.tail else cs
  let run := cs1.takeWhile isDigitOrComma
  let rest := cs1.dropWhile isDigitOrComma
  if run = [] then none
  else
    let (cap, rest2) :=
      match rest with
      | c0 :: d1 :: d2 :: r =>
        if c0 = '.' ∧ d1.isDigit ∧ d2.isDigit then (run ++ [c0, d1, d2], r)
        else (run, rest)
      | _ => (run, rest)
    let rest3 := rest2.dropWhile Char.isWhitespace
    let rest4 := match rest3 with
      | c :: r => if c = 'k' ∨ c = 'K' then r else rest3
      | [] => rest3
    some (cap, rest4)

/-- `re.findall` with the salary regex: scan left to right, restarting one
character later on a failed match and after the match end on success.  Fuel
is the list length; every successful match consumes at least one character,
so the fuel never runs out before the input does. -/
def findallSalaryAux : Nat → List Char → List (List Char)
  | 0, _ => []
  | _, [] => []
  | fuel + 1, c :: rest =>
    match matchSalaryNum (c :: rest) with
    | some (cap, after) => cap :: findallSalaryAux fuel after
    | none => findallSalaryAux fuel rest

/-- All captures of the salary regex in the text. -/
def findallSalary (cs : List Char) : List (List Char) :=
  findallSalaryAux cs.length cs

/-- Python `float(num.replace(',', ''))` on a capture: digits, then an
optional dot with a two-digit fraction.  `float('')` raises, modelled as
`none` (the Python code catches it and skips the value). -/
def parseDecimal (cs : List Char) : Option ℚ :=
  let ds := cs.filter (fun c => c ≠ ',')
  let intPart := ds.takeWhile Char.isDigit
  match ds.dropWhile Char.isDigit with
  | [] => if intPart = [] then none else some (digitsToNat intPart)
  | c :: fs =>
    if c = '.' ∧ ¬ (fs = [] ∧ intPart = []) then
      some ((digitsToNat intPart : ℚ) + (digitsToNat fs : ℚ) / (10 ^ fs.length : ℚ))
    else none

/-- The per-value conversion in `_parse_salary`: a value below 1000 is
scaled by 1000 when the text mentions a k suffix, and a value below 500 is
scaled by 2080 (40 hours times 52 weeks) when the text mentions "hour". -/
def convertSalaryValue (hasK hasHour : Bool) (v : ℚ) : ℚ :=
  let v1 := if hasK && decide (v < 1000) then v * 1000 else v
  if hasHour && decide (v1 < 500) then v1 * 2080 else v1

/-- `_parse_salary` on the textual path: extract numbers, convert, and
return (min, max) of the values (both equal to the single value when there
is exactly one, (none, none) when there are none). -/
def parseSalaryText (text : String) : Option ℚ × Option ℚ :=
  if text = "" then (none, none)
  else
    let lower := text.data.map Char.toLower
    let hasK := lower.contains 'k'
    let hasHour := hasSub "hour".data lower
    let values := (findallSalary text.data).filterMap parseDecimal
      |>.map (convertSalaryValue hasK hasHour)
    match values with
    | [] => (none, none)
    | v :: vs =>
      if vs = [] then (some v, some v)
      else (some (vs.foldl min v), some (vs.foldl max v))

/-! ### Extraction pipeline data model -/

/-- One raw extraction item, the parsed-JSON dictionary handed to
`_item_to_job_listing`.  Missing dictionary keys are `none`; `salary_min`
and `salary_max` are the pre-parsed numeric fields an LLM extraction may
provide. -/
structure ExtractionItem where
  title : Option String := none
  company : Option String := none
  location : Option String := none
  description : Option String := none
  posted_date : Option String := none
  salary : Option String := none
  salary_text : Option String := none
  salary_min : Option ℚ := none
  salary_max : Option ℚ := none
  job_key : Option String := none
  job_url : Option String := none
  company_url : Option String := none
  company_url_direct : Option String := none
  is_remote : Option Bool := none
  deriving DecidableEq

/-- The `JobListing` dataclass fields produced by the scraper (models/job.py);
the derived md5 id and scraped_at timestamp are omitted as they are not
observed by any claim. -/
structure JobListing where
  title : String
  company : String
  location : String
  description : String
  url : String
  posted_date : Int
  salary_min : Option ℚ
  salary_max : Option ℚ
  remote_type : Option String
  company_website : Option String
  deriving DecidableEq

/-- Python truthiness chain `a or b` for optional strings: an absent or
empty first operand falls through to the second. -/
def orStr (a : Option String) (b : String) : String :=
  match a with
  | some s => if s = "" then b else s
  | none => b

/-- Python truthiness of an optional string (`if x:`). -/
def truthy (a : Option String) : Bool :=
  match a with
  | some s => s ≠ ""
  | none => false

/-- `_parse_salary` (lines 1109-1146) on a whole item: the pre-parsed
`salary_min` path first (`salary_max or salary_min` with numeric
truthiness), otherwise the textual path on `salary or salary_text or ''`. -/
def parseSalary (item : ExtractionItem) : Option ℚ × Option ℚ :=
  match item.salary_min with
  | some mn =>
    let mx := match item.salary_max with
      | some v => if v = 0 then mn else v
      | none => mn
    (some mn, some mx)
  | none =>
    parseSalaryText (orStr item.salary (orStr item.salary_text ""))

/-- `_item_to_job_listing` (lines 1025-1076): returns `none` when the
stripped title is empty; the detail URL is built from `job_key` when the raw
`job_url` is missing, prefixed with the base URL when relative, and is left
as the empty string when neither key nor URL is present. -/
def itemToJobListing (now : Int) (baseUrl : String) (item : ExtractionItem) :
    Option JobListing :=
  let title := (String.mk (trimChars (orStr item.title "").data))
  if title = "" then none
  else
    let company := String.mk (trimChars (orStr item.company "Unknown").data)
    let location := String.mk (trimChars (orStr item.location "Remote").data)
    let description := String.mk (trimChars (orStr item.description "").data)
    let jobUrl0 := (item.job_url).getD ""
    let jobUrl :=
      if truthy item.job_key ∧ jobUrl0 = "" then
        baseUrl ++ "/viewjob?jk=" ++ (item.job_key).getD ""
      else if jobUrl0 ≠ "" ∧ ¬ jobUrl0.startsWith "http" then baseUrl ++ jobUrl0
      else jobUrl0
    let postedDate := parsePostedDate now ((item.posted_date).getD "")
    let (salaryMin, salaryMax) := parseSalary item
    let isRemote := (item.is_remote).getD false
      || hasSub "remote".data (location.data.map Char.toLower)
    let remoteType := if isRemote then some "Remote" else none
    let companyUrl :=
      if truthy item.company_url_direct then item.company_url_direct
      else match item.company_url with
        | some cu => if cu ≠ "" ∧ ¬ cu.startsWith "http" then some (baseUrl ++ cu) else some cu
        | none => none
    some
      { title := title
        company := company
        location := location
        description := description
        url := jobUrl
        posted_date := postedDate
        salary_min := salaryMin
        salary_max := salaryMax
        remote_type := remoteType
        company_website := companyUrl }

/-- `_parse_extraction_result` (lines 985-1023) after JSON decoding: convert
each item, keeping only those that produced a listing whose title is truthy
(the conversion already dropped empty-title items, so the second check is
the code's redundant guard). -/
def parseExtractionResult (now : Int) (baseUrl : String)
    (items : List ExtractionItem) : List JobListing :=
  items.filterMap (fun item =>
    match itemToJobListing now baseUrl item with
    | some job => if job.title ≠ "" then some job else none
    | none => none)

/-! ### Timing governor (`_smart_delay`, lines 642-673) -/

/-- Timing and session configuration with the constructor defaults of
`IndeedCrawl4AIScraper.__init__`. -/
structure ScraperConfig where
  minPageDelay : ℚ := 15
  maxPageDelay : ℚ := 30
  cloudflareBackoff : ℚ := 120
  maxPagesPerSession : Nat := 5
  rotateProxyEvery : Nat := 2

/-- `random.uniform(a, b)` with the draw `r` of `random.random()` made
explicit: `a + (b - a) * r` for `r` in [0,1). -/
def uniform (a b r : ℚ) : ℚ := a + (b - a) * r

/-- The side effect of `_smart_delay` on `cloudflare_detected_count`: the
counter is incremented exactly when the detection flag is set. -/
def smartDelayCount (detected : Bool) (c : Nat) : Nat :=
  if detected then c + 1 else c

/-- `_smart_delay`: the computed delay and the updated detection counter.
`r` is the uniform draw for the main range, `tc` the think-time chance draw
(`random.random() < 0.2`), `tt` the think-time draw; detection overrides the
page-based policy with `uniform(0.8 * backoff, 1.2 * backoff)`. -/
def smartDelay (cfg : ScraperConfig) (pageNum : Nat) (detected : Bool)
    (cfCount : Nat) (r tc tt : ℚ) : ℚ × Nat :=
  let c' := smartDelayCount detected cfCount
  if detected then
    (uniform (cfg.cloudflareBackoff * (8/10)) (cfg.cloudflareBackoff * (12/10)) r, c')
  else if pageNum = 0 then (uniform 2 5 r, c')
  else if pageNum < 3 then (uniform (cfg.minPageDelay * (1/2)) cfg.minPageDelay r, c')
  else
    let d := uniform cfg.minPageDelay cfg.maxPageDelay r
    (if tc < 1/5 then d + uniform 5 15 tt else d, c')

/-! ### Session management and the orchestrated search loop -/

/-- The mutable scraper state threaded through `search`: the proxy rotator,
the proxy bound to the current browser, and the session counters. -/
structure SearchState where
  rotator : ProxyRotator
  currentProxy : Option String
  cloudflareDetectedCount : Nat
  pagesScrapedInSession : Nat
  pagesSinceProxyRotation : Nat

/-- `_should_rotate_browser` (lines 675-692): rotate when the session page
count has reached `max_pages_per_session` or the detection count is at
least 2. -/
def shouldRotateBrowser (cfg : ScraperConfig) (st : SearchState) : Bool :=
  decide (cfg.maxPagesPerSession ≤ st.pagesScrapedInSession)
    || decide (2 ≤ st.cloudflareDetectedCount)

/-- `_rotate_browser` (lines 694-722): reset the session page counter and
the detection counter to zero, bind a fresh proxy from the rotator, and
reset the pages-since-proxy-rotation counter. -/
def rotateBrowser (st : SearchState) : SearchState :=
  { rotator := (get_next_proxy st.rotator).2
    currentProxy := (get_next_proxy st.rotator).1
    cloudflareDetectedCount := 0
    pagesScrapedInSession := 0
    pagesSinceProxyRotation := 0 }

/-- The proxy-rotation check at the top of the `search` loop (lines
775-782): when due, draw the next proxy and, if it differs from the old
one, recreate the browser (which draws again); the counter is reset in
either case. -/
def maybeRotateProxy (cfg : ScraperConfig) (st : SearchState) : SearchState :=
  if cfg.rotateProxyEvery ≤ st.pagesSinceProxyRotation then
    let p := (get_next_proxy st.rotator).1
    let st1 := { st with rotator := (get_next_proxy st.rotator).2, currentProxy := p }
    let st2 := if st.currentProxy ≠ p then rotateBrowser st1 else st1
    { st2 with pagesSinceProxyRotation := 0 }
  else st

/-- The challenge-handling block of `search` (lines 822-853, headless
mode): the current proxy is reported failed to the rotator, the detection
counter is incremented once directly and once more by the escalated
`_smart_delay` call. -/
def handleChallenge (st : SearchState) : SearchState :=
  let st1 := match st.currentProxy with
    | some p => { st with rotator := mark_failure st.rotator p }
    | none => st
  { st1 with cloudflareDetectedCount :=
      smartDelayCount true (st1.cloudflareDetectedCount + 1) }

/-- The success bookkeeping of `search` (lines 900-904): report proxy
success and advance both per-proxy and per-session page counters. -/
def markSuccessPage (st : SearchState) : SearchState :=
  let st1 := match st.currentProxy with
    | some p => { st with rotator := mark_success st.rotator p }
    | none => st
  { st1 with
    pagesSinceProxyRotation := st1.pagesSinceProxyRotation + 1
    pagesScrapedInSession := st1.pagesScrapedInSession + 1 }

/-- The observable outcome of one `crawler.arun` fetch attempt, as the
`search` loop discriminates it: a Cloudflare challenge page, a non-success
result whose error message mentions navigation or timeout (re-raised, so
handled by the exception path), any other non-success result, an exception,
or a successful page with its parsed job listings. -/
inductive FetchOutcome where
  | challenge
  | navFail
  | exn
  | fail
  | ok (pageJobs : List JobListing)

mutual

/-- Head of the `while len(jobs) < max_results and page_num < max_pages`
loop of `search` (lines 769-923): exit with the truncated job list, or run
the browser-rotation and proxy-rotation checks and enter the per-page retry
loop with `max_retries = 3` attempts (`remaining = 2` further retries). -/
def outerLoop (script : Nat → FetchOutcome) (cfg : ScraperConfig)
    (maxResults maxPages : Nat) (st : SearchState) (jobs : List JobListing)
    (pageNum cf attempt : Nat) (log : List Nat) : List JobListing × List Nat :=
  if h : maxResults ≤ jobs.length ∨ maxPages ≤ pageNum then (jobs.take maxResults, log)
  else
    let st1 := if shouldRotateBrowser cfg st then rotateBrowser st else st
    let st2 := maybeRotateProxy cfg st1
    innerStep script cfg maxResults maxPages st2 jobs pageNum cf attempt log 2
      (by omega)
  termination_by (maxPages - pageNum, 3 - cf, 5)

/-- One fetch attempt of the retry loop (`while retry_count < max_retries`,
lines 793-923, headless mode), with `remaining` further retries allowed and
`cf` the consecutive-failure count.  A challenge penalizes the proxy, bumps
the detection counter twice and skips to the next page; a plain failed
result bumps `cf` (returning everything collected once it reaches 3) and
retries; an exception (or a navigation failure, which is re-raised into the
exception handler) retries until attempts are exhausted, after which `cf` is
bumped and the outer loop resumes on the same page; an empty successful page
ends the run; a successful page with jobs extends the list and moves on.
Every attempt is recorded in `log` by its page number. -/
def innerStep (script : Nat → FetchOutcome) (cfg : ScraperConfig)
    (maxResults maxPages : Nat) (st : SearchState) (jobs : List JobListing)
    (pageNum cf attempt : Nat) (log : List Nat) (remaining : Nat)
    (hp : pageNum < maxPages) : List JobListing × List Nat :=
  let log' := log ++ [pageNum]
  match script attempt with
  | .challenge =>
    outerLoop script cfg maxResults maxPages (handleChallenge st) jobs
      (pageNum + 1) (cf + 1) (attempt + 1) log'
  | .fail =>
    if _h : 3 ≤ cf + 1 then (jobs.take maxResults, log')
    else
      match remaining with
      | 0 =>
        outerLoop script cfg maxResults maxPages st jobs pageNum (cf + 1)
          (attempt + 1) log'
      | r + 1 =>
        innerStep script cfg maxResults maxPages st jobs pageNum (cf + 1)
          (attempt + 1) log' r hp
  | .navFail | .exn =>
    match remaining with
    | 0 =>
      if h : 3 ≤ cf + 1 then (jobs.take maxResults, log')
      else
        outerLoop script cfg maxResults maxPages st jobs pageNum (cf + 1)
          (attempt + 1) log'
    | r + 1 =>
      innerStep script cfg maxResults maxPages st jobs pageNum cf
        (attempt + 1) log' r hp
  | .ok pageJobs =>
    if pageJobs = [] then (jobs.take maxResults, log')
    else
      outerLoop script cfg maxResults maxPages (markSuccessPage st)
        (jobs ++ pageJobs) (pageNum + 1) 0 (attempt + 1) log'
  termination_by (maxPages - pageNum, 3 - cf, remaining + 1)

end

/-- Initial state of a `search` run: fresh rotator; the browser is created
once on entry, whose configuration draws (and discards) one proxy from the
rotator without binding `current_proxy` (line 340). -/
def initSearchState (proxyList : List String) : SearchState :=
  let rot0 := mkProxyRotator proxyList
  let rot1 := (get_next_proxy rot0).2
  { rotator := rot1
    currentProxy := none
    cloudflareDetectedCount := 0
    pagesScrapedInSession := 0
    pagesSinceProxyRotation := 0 }

/-- `IndeedCrawl4AIScraper.search` (lines 738-964): `max_pages` is
`min(max_results // 15 + 1, 10)`; the loop starts at page 0 with zero
consecutive failures; the final list is truncated to `max_results`.  The
second component is the trace of fetch attempts (one page number per
`crawler.arun` call). -/
def searchModel (script : Nat → FetchOutcome) (cfg : ScraperConfig)
    (proxyList : List String) (maxResults : Nat) : List JobListing × List Nat :=
  let maxPages := min (maxResults / 15 + 1) 10
  outerLoop script cfg maxResults maxPages (initSearchState proxyList) [] 0 0 0 []

/-- A concrete run state used to exercise the challenge handler: a single
proxy "p1", currently bound, with a clean record. -/
def demoStateA : SearchState :=
  { rotator := mkProxyRotator ["p1"]
    currentProxy := some "p1"
    cloudflareDetectedCount := 0
    pagesScrapedInSession := 0
    pagesSinceProxyRotation := 0 }

/-- A concrete run state with a two-proxy pool, currently on "p2". -/
def demoStateB : SearchState :=
  { rotator := mkProxyRotator ["p1", "p2"]
    currentProxy := some "p2"
    cloudflareDetectedCount := 0
    pagesScrapedInSession := 1
    pagesSinceProxyRotation := 1 }

/-! ### Detection classification -/

/-- The four-way classification of a fetched page. -/
inductive DetectionOutcome where
  | OK
  | CHALLENGE
  | BLOCKED
  | EMPTY
  deriving DecidableEq

/-- The Cloudflare challenge markers tested against the fetched HTML in
`search` (indeed_crawl4ai.py lines 823-826). -/
def cloudflareMarkers (html : String) : Bool :=
  hasSub "challenges.cloudflare.com".data html.data
    || hasSub "Verify you are human".data html.data
    || hasSub "Just a moment".data html.data
    || hasSub "cf-challenge".data html.data

/-- The inline detection classification of `IndeedScraper._scrape_page`
(indeed.py lines 369-407), with the challenge markers of the Crawl4AI
variant: HTTP 403, 429 and any other status of 400 and above are treated as
blocked, then challenge markers are checked, then a page with zero
structural matches (job cards) is empty, and anything else is OK.  The
function is total: every input is classified and nothing is raised (the
Python code routes each branch to a logged early return). -/
def classify (status : Nat) (html : String) (structuralMatches : Nat) :
    DetectionOutcome :=
  if status = 403 then .BLOCKED
  else if status = 429 then .BLOCKED
  else if 400 ≤ status then .BLOCKED
  else if cloudflareMarkers html then .CHALLENGE
  else if structuralMatches = 0 then .EMPTY
  else .OK

/-! ## Helper lemmas -/

theorem getD_mem_of_lt (l : List String) (idx : Nat) (h : idx < l.length) :
    l.getD idx "" ∈ l := by
  rw [List.getD_eq_getElem l "" h]
  exact List.getElem_mem h

theorem scanProxies_none_of_all_unhealthy (proxies : List String)
    (failures : String → Nat) (maxF : Nat)
    (hall : ∀ p ∈ proxies, maxF ≤ failures p) :
    ∀ fuel idx, idx < proxies.length →
      scanProxies proxies failures maxF idx fuel = none := by
  intro fuel
  induction fuel with
  | zero => intro idx _; rfl
  | succ n ih =>
    intro idx hidx
    have hmem := getD_mem_of_lt proxies idx hidx
    have hfail := hall _ hmem
    have hlen : 0 < proxies.length := Nat.pos_of_ne_zero (by omega)
    simp only [scanProxies]
    rw [if_neg (by omega)]
    exact ih _ (Nat.mod_lt _ hlen)

theorem scanProxies_some_healthy (proxies : List String)
    (failures : String → Nat) (maxF : Nat) :
    ∀ fuel idx p i', idx < proxies.length →
      scanProxies proxies failures maxF idx fuel = some (p, i') →
      failures p < maxF ∧ p ∈ proxies := by
  intro fuel
  induction fuel with
  | zero => intro idx p i' _ h; simp [scanProxies] at h
  | succ n ih =>
    intro idx p i' hidx h
    have hlen : 0 < proxies.length := Nat.pos_of_ne_zero (by omega)
    simp only [scanProxies] at h
    by_cases hc : failures (proxies.getD idx "") < maxF
    · rw [if_pos hc] at h
      obtain ⟨rfl, rfl⟩ : proxies.getD idx "" = p ∧ (idx + 1) % proxies.length = i' := by
        simpa using h
      exact ⟨hc, getD_mem_of_lt proxies idx hidx⟩
    · rw [if_neg hc] at h
      exact ih _ p i' (Nat.mod_lt _ hlen) h

theorem scanProxies_none_unhealthy_at (proxies : List String)
    (failures : String → Nat) (maxF : Nat) :
    ∀ fuel idx, idx < proxies.length →
      scanProxies proxies failures maxF idx fuel = none →
      ∀ k, k < fuel → maxF ≤ failures (proxies.getD ((idx + k) % proxies.length) "") := by
  intro fuel
  induction fuel with
  | zero => intro idx _ _ k hk; omega
  | succ n ih =>
    intro idx hidx h k hk
    have hlen : 0 < proxies.length := Nat.pos_of_ne_zero (by omega)
    simp only [scanProxies] at h
    by_cases hc : failures (proxies.getD idx "") < maxF
    · rw [if_pos hc] at h; exact absurd h (by simp)
    · rw [if_neg hc] at h
      match k with
      | 0 =>
        rw [Nat.add_zero, Nat.mod_eq_of_lt hidx]
        omega
      | k' + 1 =>
        have := ih _ (Nat.mod_lt _ hlen) h k' (by omega)
        rwa [Nat.mod_add_mod, show (idx + 1 + k' : Nat) = idx + (k' + 1) by omega] at this

theorem scanProxies_none_all_unhealthy (proxies : List String)
    (failures : String → Nat) (maxF : Nat) (idx : Nat)
    (hidx : idx < proxies.length)
    (h : scanProxies proxies failures maxF idx proxies.length = none) :
    ∀ q ∈ proxies, maxF ≤ failures q := by
  intro q hq
  obtain ⟨j, hj, rfl⟩ := List.getElem_of_mem hq
  have hbase := scanProxies_none_unhealthy_at proxies failures maxF proxies.length idx hidx h
  by_cases hcase : idx ≤ j
  · have := hbase (j - idx) (by omega)
    rwa [show idx + (j - idx) = j by omega, Nat.mod_eq_of_lt hj,
      List.getD_eq_getElem proxies "" hj] at this
  · have := hbase (proxies.length + j - idx) (by omega)
    rwa [show idx + (proxies.length + j - idx) = proxies.length + j by omega,
      Nat.add_mod_left, Nat.mod_eq_of_lt hj, List.getD_eq_getElem proxies "" hj] at this

/-! ## Claim C2 -/

/-- C2 (counterexample): with a pool of N = 1 proxy endpoint, after N = 1
failure reported against every endpoint, the next `get_next_proxy` call
returns a valid endpoint but does NOT reset the failure counters: the
counter of "p1" is still 1 afterwards.  The reset branch only triggers once
every endpoint has reached `max_failures` = 3 failures, so the claim's
"after N consecutive failures" precondition is too weak for N < 3. -/
theorem proxy_reset_counterexample :
    (get_next_proxy (mark_failure (mkProxyRotator ["p1"]) "p1")).1 = some "p1" ∧
    (get_next_proxy (mark_failure (mkProxyRotator ["p1"]) "p1")).2.failures "p1" = 1 ∧
    ¬ (get_next_proxy (mark_failure (mkProxyRotator ["p1"]) "p1")).2.failures "p1" = 0 := by
  refine ⟨?_, ?_, ?_⟩ <;> decide

/-- C2 (amended): for every pool of N ≥ 1 proxy endpoints, once every
endpoint has accumulated at least `max_failures` failures (in particular
after `max_failures` = 3 consecutive `mark_failure` reports against each),
the next `get_next_proxy` call resets all failure counters to zero and
returns the first endpoint of the pool; and whenever some endpoint is still
healthy, the returned proxy always has a failure count below
`max_failures`, and belongs to the pool. -/
theorem proxy_pool_recovery (s : ProxyRotator) (hne : s.proxies ≠ [])
    (hidx : s.currentIdx < s.proxies.length) :
    ((∀ p ∈ s.proxies, s.maxFailures ≤ s.failures p) →
      (get_next_proxy s).1 = s.proxies.head? ∧
      ∀ q, (get_next_proxy s).2.failures q = 0) ∧
    ((∃ q ∈ s.proxies, s.failures q < s.maxFailures) →
      ∀ p, (get_next_proxy s).1 = some p →
        s.failures p < s.maxFailures ∧ p ∈ s.proxies) := by
  have hempty : s.proxies.isEmpty = false := by
    simpa [List.isEmpty_iff] using hne
  constructor
  · intro hall
    have hnone := scanProxies_none_of_all_unhealthy s.proxies s.failures s.maxFailures
      hall s.proxies.length s.currentIdx hidx
    simp only [get_next_proxy, hempty, Bool.false_eq_true, if_false, hnone]
    exact ⟨trivial, fun _ => trivial⟩
  · rintro ⟨q, hq, hqf⟩ p hp
    simp only [get_next_proxy, hempty, Bool.false_eq_true, if_false] at hp
    cases hscan : scanProxies s.proxies s.failures s.maxFailures s.currentIdx
        s.proxies.length with
    | some pr =>
      obtain ⟨p', i'⟩ := pr
      rw [hscan] at hp
      have := scanProxies_some_healthy s.proxies s.failures s.maxFailures
        s.proxies.length s.currentIdx p' i' hidx hscan
      simp only at hp
      obtain rfl : p' = p := by simpa using hp
      exact this
    | none =>
      have hall := scanProxies_none_all_unhealthy s.proxies s.failures s.maxFailures
        s.currentIdx hidx hscan
      exact absurd (hall q hq) (by omega)

/-- C2 (witness): a two-endpoint pool where each endpoint was reported
failed 3 times; `get_next_proxy` resets every counter and returns the first
endpoint "p1". -/
theorem proxy_pool_recovery_witness :
    (get_next_proxy (mark_failure (mark_failure (mark_failure (mark_failure
      (mark_failure (mark_failure (mkProxyRotator ["p1", "p2"]) "p1") "p1") "p1")
      "p2") "p2") "p2")).1 = ["p1", "p2"].head? ∧
    ∀ q, (get_next_proxy (mark_failure (mark_failure (mark_failure (mark_failure
      (mark_failure (mark_failure (mkProxyRotator ["p1", "p2"]) "p1") "p1") "p1")
      "p2") "p2") "p2")).2.failures q = 0 :=
  (proxy_pool_recovery _ (by decide) (by decide)).1 (by decide)

theorem char_isDigit_iff (c : Char) : c.isDigit = true ↔ 48 ≤ c.toNat ∧ c.toNat ≤ 57 := by
  simp only [Char.isDigit, Bool.and_eq_true, decide_eq_true_eq]
  exact Iff.rfl

theorem ofNatAux_toNat (n : Nat) (h : n.isValidChar) : (Char.ofNatAux n h).toNat = n := by
  simp [Char.ofNatAux, Char.toNat, UInt32.toNat]

theorem toLower_isDigit (c : Char) : (Char.toLower c).isDigit = c.isDigit := by
  show (if c.toNat ≥ 65 ∧ c.toNat ≤ 90 then Char.ofNat (c.toNat + 32) else c).isDigit
    = c.isDigit
  by_cases h : c.toNat ≥ 65 ∧ c.toNat ≤ 90
  · rw [if_pos h]
    have hvalid : (c.toNat + 32).isValidChar := Or.inl (by omega)
    have hofnat : (Char.ofNat (c.toNat + 32)).toNat = c.toNat + 32 := by
      unfold Char.ofNat
      rw [dif_pos hvalid, ofNatAux_toNat]
    rw [Bool.eq_iff_iff, char_isDigit_iff, char_isDigit_iff, hofnat]
    omega
  · rw [if_neg h]

theorem mem_trimChars (x : Char) (cs : List Char) (h : x ∈ trimChars cs) : x ∈ cs := by
  unfold trimChars at h
  rw [List.mem_reverse] at h
  have h1 := (List.dropWhile_sublist _).mem h
  rw [List.mem_reverse] at h1
  exact (List.dropWhile_sublist _).mem h1

theorem mem_removePosted (x : Char) (cs : List Char) (h : x ∈ removePosted cs) :
    x ∈ cs := by
  induction cs using removePosted.induct with
  | case1 => simp [removePosted] at h
  | case2 c cs hpre ih =>
    rw [removePosted, if_pos hpre] at h
    exact List.mem_cons_of_mem c (List.drop_subset 5 cs (ih h))
  | case3 c cs hpre ih =>
    rw [removePosted, if_neg hpre] at h
    rcases List.mem_cons.mp h with rfl | h'
    · exact List.mem_cons_self x cs
    · exact List.mem_cons_of_mem c (ih h')

theorem firstNumber_eq_none (cs : List Char) (h : ∀ c ∈ cs, c.isDigit = false) :
    firstNumber cs = none := by
  induction cs with
  | nil => rfl
  | cons c cs ih =>
    rw [firstNumber, if_neg]
    · exact ih fun x hx => h x (List.mem_cons_of_mem c hx)
    · simp [h c (List.mem_cons_self c cs)]

/-! ## Claim C1 -/

/-- C1 (counterexample): a run state whose current proxy is "p1" with a
clean failure record; the challenge-handling block of `search` (lines
830-853) increments the failure counter of "p1" from 0 to 1, so a challenge
DOES penalize the proxy, contrary to the claim of zero proxy-failure
increments. -/
theorem challenge_proxy_counterexample :
    demoStateA.rotator.failures "p1" = 0 ∧
    (handleChallenge demoStateA).rotator.failures "p1" = 1 := by
  refine ⟨?_, ?_⟩ <;> decide

/-- C1 (amended): when a fetched page is classified as a challenge, the
orchestrator penalizes the proxy used for the fetch — its failure counter
is incremented by exactly one — and forces session rotation: the in-session
detection counter rises by 2 (once in the handler, once in the escalated
delay), which makes the rotation predicate true for the next loop
iteration. -/
theorem challenge_handling (cfg : ScraperConfig) (st : SearchState) (p : String)
    (hp : st.currentProxy = some p) (hne : p ≠ "") :
    (handleChallenge st).rotator.failures p = st.rotator.failures p + 1 ∧
    (handleChallenge st).cloudflareDetectedCount = st.cloudflareDetectedCount + 2 ∧
    shouldRotateBrowser cfg (handleChallenge st) = true := by
  refine ⟨?_, ?_, ?_⟩ <;>
    simp [handleChallenge, mark_failure, smartDelayCount, shouldRotateBrowser, hp, hne]

/-- C1 (witness): the amended statement at a concrete state using proxy
"p2". -/
theorem challenge_handling_witness :
    (handleChallenge demoStateB).rotator.failures "p2" =
      demoStateB.rotator.failures "p2" + 1 ∧
    (handleChallenge demoStateB).cloudflareDetectedCount =
      demoStateB.cloudflareDetectedCount + 2 ∧
    shouldRotateBrowser {} (handleChallenge demoStateB) = true :=
  challenge_handling {} demoStateB "p2" rfl (by decide)

/-! ## Claim C4 -/

/-- C4: compensation parsing converts hourly phrasing to annual with the
fixed factor 2080 and applies the K-suffix multiplier 1000: the two
specified examples evaluate exactly as claimed. -/
theorem salary_parsing_examples :
    parseSalaryText "$25 - $35 an hour" = (some 52000, some 72800) ∧
    parseSalaryText "$80K - $100K" = (some 80000, some 100000) := by
  constructor <;>
    · simp +decide [parseSalaryText, findallSalary, findallSalaryAux, matchSalaryNum,
        isDigitOrComma, parseDecimal, digitsToNat, convertSalaryValue, hasSub]
      norm_num

/-! ## Claim C5 -/

/-- C5: the session-rotation predicate holds exactly when the session page
count has reached the configured per-session limit or the in-session
detection count is at least 2, and a rotation resets both counters to
zero. -/
theorem session_rotation (cfg : ScraperConfig) (st : SearchState) :
    (shouldRotateBrowser cfg st = true ↔
      cfg.maxPagesPerSession ≤ st.pagesScrapedInSession ∨
      2 ≤ st.cloudflareDetectedCount) ∧
    (rotateBrowser st).pagesScrapedInSession = 0 ∧
    (rotateBrowser st).cloudflareDetectedCount = 0 := by
  refine ⟨?_, rfl, rfl⟩
  simp [shouldRotateBrowser]

/-! ## Claim C6 -/

/-- C6: for every uniform draw r in [0,1), the delay for page 0 without
detection lies in [2,5); with the detection flag set (any page index) the
delay lies within plus or minus 20 percent of the configured backoff base,
and the in-session detection counter is incremented by one. -/
theorem timing_governor (cfg : ScraperConfig) (pageNum cfCount : Nat)
    (r tc tt : ℚ) (hr0 : 0 ≤ r) (hr1 : r < 1)
    (hb : 0 ≤ cfg.cloudflareBackoff) :
    (2 ≤ (smartDelay cfg 0 false cfCount r tc tt).1 ∧
      (smartDelay cfg 0 false cfCount r tc tt).1 < 5) ∧
    (cfg.cloudflareBackoff * (8/10) ≤ (smartDelay cfg pageNum true cfCount r tc tt).1 ∧
      (smartDelay cfg pageNum true cfCount r tc tt).1 ≤ cfg.cloudflareBackoff * (12/10)) ∧
    (smartDelay cfg pageNum true cfCount r tc tt).2 = cfCount + 1 := by
  refine ⟨⟨?_, ?_⟩, ⟨?_, ?_⟩, ?_⟩ <;>
    simp only [smartDelay, smartDelayCount, uniform, if_true, if_false,
      Bool.false_eq_true, reduceIte]
  · nlinarith
  · nlinarith
  · nlinarith
  · nlinarith

/-- C6 (witness): the statement at the default configuration (backoff base
120), page index 5, counter 0 and the draws r = 0, tc = 0, tt = 0. -/
theorem timing_governor_witness :
    (2 ≤ (smartDelay {} 0 false 0 0 0 0).1 ∧ (smartDelay {} 0 false 0 0 0 0).1 < 5) ∧
    (({} : ScraperConfig).cloudflareBackoff * (8/10) ≤ (smartDelay {} 5 true 0 0 0 0).1 ∧
      (smartDelay {} 5 true 0 0 0 0).1 ≤ ({} : ScraperConfig).cloudflareBackoff * (12/10)) ∧
    (smartDelay {} 5 true 0 0 0 0).2 = 0 + 1 :=
  timing_governor {} 5 0 0 0 0 (by norm_num) (by norm_num) (by norm_num)

/-! ## Claim C9 -/

/-- C9: the detection classification is total over the four outcomes (in
the embedding it is a total function, matching the never-raising early
returns of the Python code): HTTP 403 and 429 are BLOCKED, challenge
markers give CHALLENGE for a non-blocked status, and an indeterminate
signal (non-error status, no markers, some structural matches) defaults to
OK. -/
theorem classification (status m : Nat) (html : String) (hs : status < 400) :
    (∀ s k c, classify s c k = .OK ∨ classify s c k = .CHALLENGE ∨
      classify s c k = .BLOCKED ∨ classify s c k = .EMPTY) ∧
    classify 403 html m = .BLOCKED ∧
    classify 429 html m = .BLOCKED ∧
    (cloudflareMarkers html = true → classify status html m = .CHALLENGE) ∧
    (cloudflareMarkers html = false → 0 < m → classify status html m = .OK) := by
  refine ⟨fun s k c => ?_, ?_, ?_, fun h => ?_, fun h hm => ?_⟩ <;>
    unfold classify <;> split_ifs <;> first | rfl | omega | tauto | simp_all

/-- C9 (witness): the classification at status 200, a page bearing one of
the challenge markers, and 5 structural matches. -/
theorem classification_witness :
    classify 403 "Just a moment..." 5 = .BLOCKED ∧
    classify 429 "Just a moment..." 5 = .BLOCKED ∧
    (cloudflareMarkers "Just a moment..." = true →
      classify 200 "Just a moment..." 5 = .CHALLENGE) ∧
    (cloudflareMarkers "Just a moment..." = false → 0 < 5 →
      classify 200 "Just a moment..." 5 = .OK) :=
  (classification 200 5 "Just a moment..." (by norm_num)).2

/-! ## Claim C3 -/

theorem itemToJobListing_title (now : Int) (base : String) (item : ExtractionItem)
    (j : JobListing) (h : itemToJobListing now base item = some j) :
    j.title ≠ "" := by
  simp only [itemToJobListing] at h
  split at h
  · exact absurd h (by simp)
  · rename_i hne
    obtain rfl := Option.some.inj h
    exact hne

/-- C3 (counterexample): an extracted item carrying only a title is
converted and emitted with an empty detail URL (there is neither a
`job_key` nor a `job_url` to build one from, and no URL check is applied
before emission), refuting the claim that every emitted record has a
non-empty detail URL. -/
theorem extraction_url_counterexample :
    (parseExtractionResult 0 "https://www.indeed.com"
      [{ title := some "Engineer" }]).map JobListing.url = [""] ∧
    (parseExtractionResult 0 "https://www.indeed.com"
      [{ title := some "Engineer" }]).map JobListing.title = ["Engineer"] := by
  constructor <;> decide

/-- C3 (amended): every CandidateRecord emitted by the extraction pipeline
has a non-empty title — an extracted item whose (stripped) title is missing
or empty is dropped rather than emitted; no such guarantee exists for the
detail URL, which can be emitted empty. -/
theorem emitted_title_nonempty (now : Int) (base : String)
    (items : List ExtractionItem) (job : JobListing)
    (hmem : job ∈ parseExtractionResult now base items) : job.title ≠ "" := by
  simp only [parseExtractionResult, List.mem_filterMap] at hmem
  obtain ⟨item, _, hsome⟩ := hmem
  cases hj : itemToJobListing now base item with
  | none => rw [hj] at hsome; simp at hsome
  | some j =>
    rw [hj] at hsome
    have ht := itemToJobListing_title now base item j hj
    simp only [ne_eq, ht, not_false_eq_true, if_true, Option.some.injEq] at hsome
    exact hsome ▸ ht

/-- C3 (witness): the amended statement at the concrete emitted record of
the single-title item. -/
theorem emitted_title_nonempty_witness :
    ({ title := "Engineer", company := "Unknown", location := "Remote",
       description := "", url := "", posted_date := 0, salary_min := none,
       salary_max := none, remote_type := some "Remote",
       company_website := none } : JobListing).title ≠ "" :=
  emitted_title_nonempty 0 "https://www.indeed.com" [{ title := some "Engineer" }] _
    (by decide)

/-! ## Claim C8 -/

/-- C8: extraction is deterministic once the intrinsic inputs are explicit:
re-running the extraction step on identical content with the same reference
time yields the identical CandidateRecord list (in the embedding the
ambient `datetime.now()` is the explicit `now` parameter, which is exactly
the injectability the claim requires), and relative-date text containing no
digit — hence unparseable as a relative date — maps to the reference time
rather than raising. -/
theorem extraction_deterministic (now : Int) (base : String)
    (items : List ExtractionItem) (t : String)
    (h : ∀ c ∈ t.data, c.isDigit = false) :
    parseExtractionResult now base items = parseExtractionResult now base items ∧
    parsePostedDate now t = now := by
  refine ⟨rfl, ?_⟩
  unfold parsePostedDate
  by_cases h0 : t = ""
  · rw [if_pos h0]
  · rw [if_neg h0]
    show (if _ ∨ _ ∨ _ then now else _) = now
    set u := trimChars (removePosted (trimChars (t.data.map Char.toLower))) with hu
    have hnd : ∀ c ∈ u, c.isDigit = false := by
      intro c hc
      have hc1 := mem_trimChars _ _ (hu ▸ hc)
      have hc2 := mem_removePosted _ _ hc1
      have hc3 := mem_trimChars _ _ hc2
      obtain ⟨c0, hc0, rfl⟩ := List.mem_map.mp hc3
      rw [toLower_isDigit]
      exact h c0 hc0
    by_cases hif : u = [] ∨ u = "just".data ∨ hasSub "today".data u = true
    · rw [if_pos hif]
    · rw [if_neg hif, firstNumber_eq_none u hnd]

/-- C8 (witness): the statement at reference time 0 and the digit-free
relative-date text "Just posted". -/
theorem extraction_deterministic_witness :
    parseExtractionResult 0 "https://www.indeed.com" [] =
      parseExtractionResult 0 "https://www.indeed.com" [] ∧
    parsePostedDate 0 "Just posted" = 0 :=
  extraction_deterministic 0 "https://www.indeed.com" [] "Just posted" (by decide)

/-! ## Claims C7 and C10: the search loop -/

/-- Joint invariant of the mutually recursive search loop: the job list of
every result is truncated to `max_results`, and the number of fetch
attempts recorded in the log is bounded by an explicit linear function of
the remaining pages and the consecutive-failure budget. -/
theorem loops_invariant (script : Nat → FetchOutcome) (cfg : ScraperConfig)
    (maxResults maxPages : Nat) :
    ∀ st jobs pageNum cf attempt log,
      (outerLoop script cfg maxResults maxPages st jobs pageNum cf attempt log).1.length
          ≤ maxResults ∧
      (outerLoop script cfg maxResults maxPages st jobs pageNum cf attempt log).2.length
          ≤ log.length + 18 * (maxPages - pageNum) + 5 * (3 - cf) + 8 := by
  refine outerLoop.induct script cfg maxResults maxPages
    (fun st jobs pageNum cf attempt log =>
      (outerLoop script cfg maxResults maxPages st jobs pageNum cf attempt log).1.length
          ≤ maxResults ∧
      (outerLoop script cfg maxResults maxPages st jobs pageNum cf attempt log).2.length
          ≤ log.length + 18 * (maxPages - pageNum) + 5 * (3 - cf) + 8)
    (fun st jobs pageNum cf attempt log remaining hp =>
      (innerStep script cfg maxResults maxPages st jobs pageNum cf attempt log
            remaining hp).1.length ≤ maxResults ∧
      (innerStep script cfg maxResults maxPages st jobs pageNum cf attempt log
            remaining hp).2.length
          ≤ log.length + 18 * (maxPages - pageNum) + (remaining + 1) +
            (if cf ≤ 1 then 5 * (2 - cf) + 8 else 5))
    ?_ ?_ ?_ ?_ ?_ ?_ ?_ ?_ ?_ ?_ ?_ ?_ ?_ ?_
  · intro st jobs pageNum cf attempt log h
    rw [outerLoop.eq_def, dif_pos h]
    refine ⟨?_, ?_⟩ <;> simp [List.length_take] <;> omega
  · intro st jobs pageNum cf attempt log h st1 st2 ih
    rw [outerLoop.eq_def, dif_neg h]
    exact ⟨ih.1, le_trans ih.2 (by split_ifs <;> omega)⟩
  · -- challenge
    intro st jobs pageNum cf attempt log remaining hp log' hscript ih
    have hl : log' = log ++ [pageNum] := rfl
    have ih2 := ih.2
    simp only [hl, List.length_append, List.length_singleton] at ih2
    cases remaining with
    | zero =>
      rw [innerStep.eq_1]
      simp only [hscript]
      exact ⟨ih.1, le_trans ih2 (by split_ifs <;> omega)⟩
    | succ r =>
      rw [innerStep.eq_2]
      simp only [hscript]
      exact ⟨ih.1, le_trans ih2 (by split_ifs <;> omega)⟩
  · -- fail, cf exhausted: stop
    intro st jobs pageNum cf attempt log remaining hp hscript h3
    cases remaining with
    | zero =>
      rw [innerStep.eq_1]
      simp only [hscript]
      rw [dif_pos h3]
      refine ⟨?_, ?_⟩ <;> simp [List.length_take] <;> split_ifs <;> omega
    | succ r =>
      rw [innerStep.eq_2]
      simp only [hscript]
      rw [dif_pos h3]
      refine ⟨?_, ?_⟩ <;> simp [List.length_take] <;> split_ifs <;> omega
  · -- fail, remaining 0: back to outer on the same page
    intro st jobs pageNum cf attempt log hp log' hscript hn3 ih
    have hl : log' = log ++ [pageNum] := rfl
    have ih2 := ih.2
    simp only [hl, List.length_append, List.length_singleton] at ih2
    rw [innerStep.eq_1]
    simp only [hscript]
    rw [dif_neg hn3]
    exact ⟨ih.1, le_trans ih2 (by split_ifs <;> omega)⟩
  · -- fail, remaining positive: retry
    intro st jobs pageNum cf attempt log hp log' hscript hn3 r ih
    have hl : log' = log ++ [pageNum] := rfl
    have ih2 := ih.2
    simp only [hl, List.length_append, List.length_singleton] at ih2
    rw [innerStep.eq_2]
    simp only [hscript]
    rw [dif_neg hn3]
    exact ⟨ih.1, le_trans ih2 (by split_ifs <;> omega)⟩
  · -- navFail, remaining 0, cf exhausted: stop
    intro st jobs pageNum cf attempt log hp hscript h3
    rw [innerStep.eq_1]
    simp only [hscript]
    rw [dif_pos h3]
    refine ⟨?_, ?_⟩ <;> simp [List.length_take] <;> split_ifs <;> omega
  · -- navFail, remaining 0: back to outer
    intro st jobs pageNum cf attempt log hp log' hscript hn3 ih
    have hl : log' = log ++ [pageNum] := rfl
    have ih2 := ih.2
    simp only [hl, List.length_append, List.length_singleton] at ih2
    rw [innerStep.eq_1]
    simp only [hscript]
    rw [dif_neg hn3]
    exact ⟨ih.1, le_trans ih2 (by split_ifs <;> omega)⟩
  · -- navFail, remaining positive: retry
    intro st jobs pageNum cf attempt log hp log' hscript r ih
    have hl : log' = log ++ [pageNum] := rfl
    have ih2 := ih.2
    simp only [hl, List.length_append, List.length_singleton] at ih2
    rw [innerStep.eq_2]
    simp only [hscript]
    exact ⟨ih.1, le_trans ih2 (by split_ifs <;> omega)⟩
  · -- exn, remaining 0, cf exhausted: stop
    intro st jobs pageNum cf attempt log hp hscript h3
    rw [innerStep.eq_1]
    simp only [hscript]
    rw [dif_pos h3]
    refine ⟨?_, ?_⟩ <;> simp [List.length_take] <;> split_ifs <;> omega
  · -- exn, remaining 0: back to outer
    intro st jobs pageNum cf attempt log hp log' hscript hn3 ih
    have hl : log' = log ++ [pageNum] := rfl
    have ih2 := ih.2
    simp only [hl, List.length_append, List.length_singleton] at ih2
    rw [innerStep.eq_1]
    simp only [hscript]
    rw [dif_neg hn3]
    exact ⟨ih.1, le_trans ih2 (by split_ifs <;> omega)⟩
  · -- exn, remaining positive: retry
    intro st jobs pageNum cf attempt log hp log' hscript r ih
    have hl : log' = log ++ [pageNum] := rfl
    have ih2 := ih.2
    simp only [hl, List.length_append, List.length_singleton] at ih2
    rw [innerStep.eq_2]
    simp only [hscript]
    exact ⟨ih.1, le_trans ih2 (by split_ifs <;> omega)⟩
  · -- ok with empty page: stop
    intro st jobs pageNum cf attempt log remaining hp hscript
    cases remaining with
    | zero =>
      rw [innerStep.eq_1]
      simp only [hscript]
      refine ⟨?_, ?_⟩ <;> simp [List.length_take] <;> split_ifs <;> omega
    | succ r =>
      rw [innerStep.eq_2]
      simp only [hscript]
      refine ⟨?_, ?_⟩ <;> simp [List.length_take] <;> split_ifs <;> omega
  · -- ok with jobs: next page
    intro st jobs pageNum cf attempt log remaining hp log' pageJobs hscript hne ih
    have hl : log' = log ++ [pageNum] := rfl
    have ih2 := ih.2
    simp only [hl, List.length_append, List.length_singleton] at ih2
    cases remaining with
    | zero =>
      rw [innerStep.eq_1]
      simp only [hscript]
      rw [if_neg hne]
      exact ⟨ih.1, le_trans ih2 (by split_ifs <;> omega)⟩
    | succ r =>
      rw [innerStep.eq_2]
      simp only [hscript]
      rw [if_neg hne]
      exact ⟨ih.1, le_trans ih2 (by split_ifs <;> omega)⟩

/-- C7 (counterexample): with max_results = 1 (one page) and a script where
every fetch attempt raises an exception, the run makes nine fetch attempts,
all against the page-0 URL: after the three attempts of a visit are
exhausted the loop re-enters the same page (page_num is not advanced on
abandonment), three visits in all until consecutive failures reach 3.  So
per-URL attempts are not bounded by the configured maximum of 3. -/
theorem retry_bound_counterexample :
    (searchModel (fun _ => FetchOutcome.exn) {} [] 1).2 = [0, 0, 0, 0, 0, 0, 0, 0, 0] ∧
    ¬ ((searchModel (fun _ => FetchOutcome.exn) {} [] 1).2.count 0 ≤ 3) := by
  have h : (searchModel (fun _ => FetchOutcome.exn) {} [] 1).2 =
      [0, 0, 0, 0, 0, 0, 0, 0, 0] := by
    simp [searchModel, outerLoop, innerStep, initSearchState, mkProxyRotator,
      get_next_proxy, scanProxies, shouldRotateBrowser, maybeRotateProxy,
      rotateBrowser, handleChallenge, markSuccessPage, smartDelayCount]
  refine ⟨h, ?_⟩
  rw [h]
  decide

/-- C7 (amended): retry attempts within one visit to a page are bounded by
the configured maximum 3, but an abandoned page is re-entered (its page
number is not advanced), so one URL can receive up to 9 attempts — 3 visits
of 3 — before consecutive failures reach the threshold 3 and the run stops
early, returning the records already collected.  The whole multi-page run
terminates: the loop is a total function, and for every script its total
number of fetch attempts is at most 18 * max_pages + 23. -/
theorem search_attempts_bounded (script : Nat → FetchOutcome)
    (cfg : ScraperConfig) (proxyList : List String) (maxResults : Nat) :
    (searchModel script cfg proxyList maxResults).2.length ≤
      18 * min (maxResults / 15 + 1) 10 + 23 := by
  have h := (loops_invariant script cfg maxResults (min (maxResults / 15 + 1) 10)
      (initSearchState proxyList) [] 0 0 0 []).2
  simpa using h

/-- C10: whatever the script of fetch outcomes, the configuration and the
proxy pool, the list of records returned by `search` has length at most
`max_results`: every return site truncates with `[:max_results]`. -/
theorem search_truncates (script : Nat → FetchOutcome) (cfg : ScraperConfig)
    (proxyList : List String) (maxResults : Nat) :
    (searchModel script cfg proxyList maxResults).1.length ≤ maxResults := by
  exact (loops_invariant script cfg maxResults (min (maxResults / 15 + 1) 10)
      (initSearchState proxyList) [] 0 0 0 []).1

end JobSearch
